import Mathlib

/-
  Verification of the HVSP fuse programmer (HVProgrammer.cpp).

  The development has two layers, matching the structure of the source:

  * A bit-level model of the `shiftOut` primitive (src/src/HVProgrammer.cpp,
    lines 209-233).  The physical environment is a `BitEnv`: the stream of
    levels sampled on the SDO response line (one entry per `digitalRead(SDO)`
    call), the stream of `millis()` readings taken inside the initial poll
    loop, and the `millis()` value captured at entry.  The transfer loop is
    modelled with machine-integer arithmetic made explicit on `Nat`
    (`% 65536` for the `uint16_t` shift register, `% 256` for the `uint8_t`
    arguments and result), and it records every pin operation of the loop in
    a `PinEvent` trace.

  * A transaction-level model of the higher operations (`readSignature`,
    `readFuses`, `readLockBits`, `writeFuse`, `eraseFlashAndLockBits`) and of
    the session body of `loop`.  At this layer each `shiftOut` call is one
    `SEvent.txn` event produced by `transact`, whose response byte comes
    from an oracle `resp : Nat → Nat` indexed by the number of transactions
    issued so far; power-rail and pin-mode operations of `loop` are traced
    as their own events.  Serial printing, the LED, delays and the
    button/serial trigger glue are outside the modelled core.
-/

/-- A pin operation performed by the `shiftOut` transfer loop. -/
inductive PinEvent : Type
  | writeSDI (b : Bool)
  | writeSII (b : Bool)
  | writeSCI (b : Bool)
  | readSDO (b : Bool)
deriving DecidableEq, Repr

/-- The physical environment seen by one `shiftOut` call: `sdo k` is the level
returned by the k-th `digitalRead(SDO)` of the call, `clk k` is the value of
`millis()` at the k-th poll iteration, and `start` is the `millis()` value
captured on entry (`tMillis`). -/
structure BitEnv : Type where
  sdo : Nat → Bool
  clk : Nat → Nat
  start : Nat

/-- `READING_TIMEOUT_MILLIS` from the source. -/
def READING_TIMEOUT_MILLIS : Nat := 300

/-- The k-th iteration of the poll loop `while (!digitalRead(SDO)) { if
(millis() > tMillis + READING_TIMEOUT_MILLIS) break; }` is the last one
exactly when the line reads high or the clock has passed the deadline. -/
def pollDone (e : BitEnv) (k : Nat) : Bool :=
  e.sdo k || decide (e.start + READING_TIMEOUT_MILLIS < e.clk k)

/-- The transfer loop of `shiftOut` (lines 221-228): `for (int8_t i = 10;
i >= 0; i--)` with fuel `i + 1`.  Per iteration it drives the SDI and SII
bits of the two 11-bit frames, shifts the sampled SDO level into the
`uint16_t` register `tInBits` (`<<= 1` then `|=`), and pulses SCI high then
low.  At fuel 0 it returns `tInBits >> 2` converted to `uint8_t`. -/
def shiftOutGo (tSDIOut tSIIOut : Nat) (resp : Nat → Bool) :
    Nat → Nat → List PinEvent → Nat × List PinEvent
  | 0, tInBits, tr => (tInBits / 4 % 256, tr)
  | f + 1, tInBits, tr =>
    let i := f
    let b := resp (10 - i)
    shiftOutGo tSDIOut tSIIOut resp f
      ((2 * tInBits) % 65536 ||| (bif b then 1 else 0))
      (tr ++ [PinEvent.writeSDI (Nat.testBit tSDIOut i),
              PinEvent.writeSII (Nat.testBit tSIIOut i),
              PinEvent.readSDO b,
              PinEvent.writeSCI true, PinEvent.writeSCI false])

/-- `uint8_t shiftOut(uint8_t aValue, uint8_t aAddress)` (lines 209-233).
The poll loop runs until `pollDone`; its exit index is the least such
iteration, obtained by `Nat.find` from the hypothesis that a ready-or-timeout
iteration exists (physically guaranteed because `millis()` grows without
bound).  The poll consumes SDO samples 0..exit; the transfer loop then
consumes the next 11 samples.  `aValue` and `aAddress` are `uint8_t`
(`% 256`) and the shifted frames are `uint16_t` (`% 65536`). -/
def shiftOut (aValue aAddress : Nat) (e : BitEnv)
    (h : ∃ k, pollDone e k = true) : Nat × List PinEvent :=
  let n := Nat.find h
  shiftOutGo ((aValue % 256) * 4 % 65536) ((aAddress % 256) * 4 % 65536)
    (fun j => e.sdo (n + 1 + j)) 11 0 []

/-- The 11-bit shift register accumulated from `n` response samples starting
at sample index `j` with initial register `acc`: the clean specification of
the `tInBits` accumulation. -/
def foldBitsFrom (resp : Nat → Bool) : Nat → Nat → Nat → Nat
  | _, acc, 0 => acc
  | j, acc, n + 1 => foldBitsFrom resp (j + 1) (2 * acc + (bif resp j then 1 else 0)) n

/-- The five pin events of the transfer-loop iteration that consumes response
sample `j` (loop counter `i = 10 - j`): drive the two frame bits, sample the
response, pulse the clock. -/
def blockAt (tSDIOut tSIIOut : Nat) (resp : Nat → Bool) (j : Nat) : List PinEvent :=
  [PinEvent.writeSDI (Nat.testBit tSDIOut (10 - j)),
   PinEvent.writeSII (Nat.testBit tSIIOut (10 - j)),
   PinEvent.readSDO (resp j),
   PinEvent.writeSCI true, PinEvent.writeSCI false]

/-- The pin-event trace of `n` consecutive transfer-loop iterations starting
at response-sample index `j`. -/
def blocksFrom (tSDIOut tSIIOut : Nat) (resp : Nat → Bool) : Nat → Nat → List PinEvent
  | _, 0 => []
  | j, n + 1 => blockAt tSDIOut tSIIOut resp j ++ blocksFrom tSDIOut tSIIOut resp (j + 1) n

/-- Recognizes the clock-line-high event of a clock pulse. -/
def isClockHigh (ev : PinEvent) : Bool :=
  match ev with
  | PinEvent.writeSCI true => true
  | _ => false

/-- Recognizes a response-line sample event. -/
def isResponseSample (ev : PinEvent) : Bool :=
  match ev with
  | PinEvent.readSDO _ => true
  | _ => false

/-- An observable action of the session at the transaction level: one
`shiftOut` call (recorded with its two `uint8_t` arguments), a power-rail or
protocol-pin write, or a change of the SDO pin direction. -/
inductive SEvent : Type
  | txn (v a : Nat)
  | writeVCC (b : Bool)
  | writeRST (b : Bool)
  | writeSCI (b : Bool)
  | writeSDI (b : Bool)
  | writeSII (b : Bool)
  | writeSDO (b : Bool)
  | pinModeSDOOut (b : Bool)
deriving DecidableEq, Repr

/-- Transaction-level hardware state: `resp k` is the response byte the
target returns to the k-th `shiftOut` call of the session, `count` the number
of calls made so far, `trace` the recorded events. -/
structure HW : Type where
  resp : Nat → Nat
  count : Nat
  trace : List SEvent

/-- The state at the start of a session: no transactions issued yet. -/
def initHW (resp : Nat → Nat) : HW := ⟨resp, 0, []⟩

/-- One `shiftOut(v, a)` call seen at the transaction level: records the
transaction and returns the oracle's response byte (a `uint8_t`). -/
def transact (v a : Nat) (s : HW) : Nat × HW :=
  (s.resp s.count % 256,
   ⟨s.resp, s.count + 1, s.trace ++ [SEvent.txn (v % 256) (a % 256)]⟩)

/-- Record one non-transaction event (a `digitalWrite`/`pinMode` performed by
`loop` outside `shiftOut`). -/
def emit (ev : SEvent) (s : HW) : HW := ⟨s.resp, s.count, s.trace ++ [ev]⟩

/-- Fuse selector constants from the source. -/
def HFUSE : Nat := 0x747C

def LFUSE : Nat := 0x646C

def EFUSE : Nat := 0x666E

/-- Device signature constants from the source. -/
def ATTINY13 : Nat := 0x9007

def ATTINY24 : Nat := 0x910B

def ATTINY25 : Nat := 0x9108

def ATTINY44 : Nat := 0x9207

def ATTINY45 : Nat := 0x9206

def ATTINY84 : Nat := 0x930C

def ATTINY85 : Nat := 0x930B

/-- One iteration of the `readSignature` loop body (lines 330-334):
the 4-transaction sub-sequence for index `tIndex`, folding the byte read by
the last transaction into the `uint16_t` accumulator `tSignature`. -/
def readSignatureStep (tIndex tSignature : Nat) (s : HW) : Nat × HW :=
  let s1 := (transact 0x08 0x4C s).2
  let s2 := (transact tIndex 0x0C s1).2
  let s3 := (transact 0x00 0x68 s2).2
  let r4 := transact 0x00 0x6C s3
  (((tSignature <<< 8) + r4.1) % 65536, r4.2)

/-- `uint16_t readSignature()` (lines 326-338): the loop
`for (tIndex = 1; tIndex < 3; tIndex++)` unrolled to its two iterations. -/
def readSignature (s : HW) : Nat × HW :=
  let r1 := readSignatureStep 1 0 s
  readSignatureStep 2 r1.1 r1.2

/-- `void readFuses()` (lines 301-324): three fixed 3-transaction reads, in
low/high/extended order.  The read bytes are only printed, so at this level
they are discarded. -/
def readFuses (s : HW) : HW :=
  let s1 := (transact 0x04 0x4C s).2
  let s2 := (transact 0x00 0x68 s1).2
  let s3 := (transact 0x00 0x6C s2).2
  let s4 := (transact 0x04 0x4C s3).2
  let s5 := (transact 0x00 0x7A s4).2
  let s6 := (transact 0x00 0x7E s5).2
  let s7 := (transact 0x04 0x4C s6).2
  let s8 := (transact 0x00 0x6A s7).2
  (transact 0x00 0x6E s8).2

/-- The human-readable lock-bit status lines printed by `readLockBits`. -/
inductive LockMsg : Type
  | lb1Programmed
  | lb1NotProgrammed
  | lb2Programmed
  | lb2NotProgrammed
deriving DecidableEq, Repr

/-- `void readLockBits()` (lines 236-267): the fixed 3-transaction lock read,
then the two status lines decoded from bits 0 and 1 of the read byte
(`if (tValue & 0x01)` reports LB1 "Not Programmed", else "Programmed", and
likewise `tValue & 0x02` for LB2).  The trailing SDO settle poll touches no
transaction and is omitted at this level. -/
def readLockBits (s : HW) : List LockMsg × HW :=
  let s1 := (transact 0x04 0x4C s).2
  let s2 := (transact 0x00 0x78 s1).2
  let r3 := transact 0x00 0x7C s2
  let tValue := r3.1
  ([if tValue &&& 0x01 ≠ 0 then LockMsg.lb1NotProgrammed else LockMsg.lb1Programmed,
    if tValue &&& 0x02 ≠ 0 then LockMsg.lb2NotProgrammed else LockMsg.lb2Programmed],
   r3.2)

/-- `void eraseFlashAndLockBits()` (lines 269-285): the fixed 3-transaction
erase sequence; the trailing SDO settle poll is omitted at this level. -/
def eraseFlashAndLockBits (s : HW) : HW :=
  let s1 := (transact 0x80 0x4C s).2
  let s2 := (transact 0x00 0x64 s1).2
  (transact 0x00 0x6C s2).2

/-- `void writeFuse(uint16_t aFuseAddress, uint8_t aFuseValue)` (lines
287-299): the fixed 4-transaction write sequence, the address high and low
bytes taken from the 16-bit selector by `(uint8_t)(aFuseAddress >> 8)` and
`(uint8_t)aFuseAddress`. -/
def writeFuse (aFuseAddress aFuseValue : Nat) (s : HW) : HW :=
  let s1 := (transact 0x40 0x4C s).2
  let s2 := (transact aFuseValue 0x2C s1).2
  let s3 := (transact 0x00 (aFuseAddress / 256) s2).2
  (transact 0x00 aFuseAddress s3).2

/-- The power-up sequence of `loop` (lines 112-121): SDO to output, SDI, SII
and SDO driven low, RST high (12V off), VCC on, RST low (12V on), SDO back to
input.  LED, serial and delay calls are not modelled. -/
def powerUp (s : HW) : HW :=
  emit (SEvent.pinModeSDOOut false)
    (emit (SEvent.writeRST false)
      (emit (SEvent.writeVCC true)
        (emit (SEvent.writeRST true)
          (emit (SEvent.writeSDO false)
            (emit (SEvent.writeSII false)
              (emit (SEvent.writeSDI false)
                (emit (SEvent.pinModeSDOOut true) s)))))))

/-- The body of `loop` (lines 110-189) from the point where a trigger has
been accepted and the command character read, to the power-down writes.
`tReceivedChar` is the received character code: 'e' = 101, 'E' = 69,
'r' = 114, 'R' = 82, 0 for the button.  Serial printing, the button-release
debounce wait of the unrecognized branch, the LED and delays are not
modelled; every `shiftOut`, `writeFuse`, `readFuses`, `readLockBits`,
`eraseFlashAndLockBits` call and every power-rail write is. -/
def session (tReceivedChar : Nat) (s0 : HW) : HW :=
  let s1 := powerUp s0
  let rs := readSignature s1
  let tSignature := rs.1
  let s2 := rs.2
  let s3 := readFuses s2
  let s4 := (readLockBits s3).2
  let s5 := if tReceivedChar = 101 ∨ tReceivedChar = 69 then eraseFlashAndLockBits s4 else s4
  let s6 :=
    if tSignature = ATTINY13 then
      if tReceivedChar ≠ 101 ∧ tReceivedChar ≠ 69 ∧ tReceivedChar ≠ 114 ∧ tReceivedChar ≠ 82 then
        writeFuse HFUSE 0xFF (writeFuse LFUSE 0x6A s5)
      else s5
    else if tSignature = ATTINY24 ∨ tSignature = ATTINY44 ∨ tSignature = ATTINY84
        ∨ tSignature = ATTINY25 ∨ tSignature = ATTINY45 ∨ tSignature = ATTINY85 then
      if tReceivedChar ≠ 101 ∧ tReceivedChar ≠ 69 ∧ tReceivedChar ≠ 114 ∧ tReceivedChar ≠ 82 then
        writeFuse EFUSE 0xFF (writeFuse HFUSE 0xDF (writeFuse LFUSE 0x62 s5))
      else s5
    else s5
  let s7 :=
    if tReceivedChar ≠ 114 ∧ tReceivedChar ≠ 82 then (readLockBits (readFuses s6)).2
    else s6
  emit (SEvent.writeRST true) (emit (SEvent.writeVCC false) (emit (SEvent.writeSCI false) s7))

/-- The events of the power-up sequence. -/
def upTrace : List SEvent :=
  [SEvent.pinModeSDOOut true, SEvent.writeSDI false, SEvent.writeSII false, SEvent.writeSDO false,
   SEvent.writeRST true, SEvent.writeVCC true, SEvent.writeRST false, SEvent.pinModeSDOOut false]

/-- The eight signature-read transactions: the 4-transaction sub-sequence for
index 1, then for index 2. -/
def sigTrace : List SEvent :=
  [SEvent.txn 0x08 0x4C, SEvent.txn 0x01 0x0C, SEvent.txn 0x00 0x68, SEvent.txn 0x00 0x6C,
   SEvent.txn 0x08 0x4C, SEvent.txn 0x02 0x0C, SEvent.txn 0x00 0x68, SEvent.txn 0x00 0x6C]

/-- The nine fuse-read transactions (low, high, extended banks in order). -/
def fuseReadTrace : List SEvent :=
  [SEvent.txn 0x04 0x4C, SEvent.txn 0x00 0x68, SEvent.txn 0x00 0x6C,
   SEvent.txn 0x04 0x4C, SEvent.txn 0x00 0x7A, SEvent.txn 0x00 0x7E,
   SEvent.txn 0x04 0x4C, SEvent.txn 0x00 0x6A, SEvent.txn 0x00 0x6E]

/-- The three lock-bit-read transactions. -/
def lockReadTrace : List SEvent :=
  [SEvent.txn 0x04 0x4C, SEvent.txn 0x00 0x78, SEvent.txn 0x00 0x7C]

/-- The three erase transactions. -/
def eraseTrace : List SEvent :=
  [SEvent.txn 0x80 0x4C, SEvent.txn 0x00 0x64, SEvent.txn 0x00 0x6C]

/-- The four transactions of one `writeFuse(addr, value)` call. -/
def writeFuseTrace (addr value : Nat) : List SEvent :=
  [SEvent.txn 0x40 0x4C, SEvent.txn (value % 256) 0x2C,
   SEvent.txn 0x00 (addr / 256 % 256), SEvent.txn 0x00 (addr % 256)]

/-- The write transactions of the ATtiny13 branch: low fuse 0x6A then high
fuse 0xFF, no extended-fuse write. -/
def write13Trace : List SEvent := writeFuseTrace LFUSE 0x6A ++ writeFuseTrace HFUSE 0xFF

/-- The write transactions of the ATtiny24/44/84/25/45/85 branch: low fuse
0x62, high fuse 0xDF, extended fuse 0xFF. -/
def writeFamTrace : List SEvent :=
  writeFuseTrace LFUSE 0x62 ++ writeFuseTrace HFUSE 0xDF ++ writeFuseTrace EFUSE 0xFF

/-- The events of the power-down sequence: SCI low, VCC off, RST high
(12V off through the inverting level shifter). -/
def downTrace : List SEvent :=
  [SEvent.writeSCI false, SEvent.writeVCC false, SEvent.writeRST true]

/-- The 16-bit signature a session assembles from the response oracle: the
byte of the 4th transaction (index 3) is the high byte, the byte of the 8th
transaction (index 7) the low byte. -/
def sigOf (resp : Nat → Nat) : Nat := (resp 3 % 256) * 256 + resp 7 % 256

/-- A response oracle that makes the session read signature 0x9007
(ATtiny13): byte 0x90 at transaction 3, byte 0x07 at transaction 7. -/
def sig13Resp : Nat → Nat := fun k => if k = 3 then 0x90 else if k = 7 then 0x07 else 0

lemma two_mul_lor_bit (a : Nat) (b : Bool) :
    2 * a ||| (bif b then 1 else 0) = 2 * a + (bif b then 1 else 0) := by
  cases b
  · simp
  · show 2 * a ||| 1 = 2 * a + 1
    apply Nat.eq_of_testBit_eq
    intro i
    cases i with
    | zero =>
      rw [Nat.testBit_or]
      simp [Nat.testBit_zero, Nat.mul_add_mod]
    | succ j =>
      rw [Nat.testBit_or, Nat.testBit_succ, Nat.testBit_succ, Nat.testBit_succ]
      have h1 : 2 * a / 2 = a := by omega
      have h2 : (2 * a + 1) / 2 = a := by omega
      have h3 : (1 : Nat) / 2 = 0 := by norm_num
      rw [h1, h2, h3]
      simp [Nat.zero_testBit]

lemma bif_le_one (b : Bool) : (bif b then 1 else 0 : Nat) ≤ 1 := by
  cases b <;> simp

/-- Closed form of the transfer loop: with `j + f = 11` and the register
small enough that the `uint16_t` truncation never fires, `shiftOutGo`
computes the accumulated register (shifted and truncated at the end) and
appends the per-iteration pin-event blocks. -/
lemma shiftOutGo_spec (tSDIOut tSIIOut : Nat) (resp : Nat → Bool) :
    ∀ (f j acc : Nat) (tr : List PinEvent), j + f = 11 →
      (acc + 1) * 2 ^ f ≤ 65536 →
      shiftOutGo tSDIOut tSIIOut resp f acc tr
        = (foldBitsFrom resp j acc f / 4 % 256,
           tr ++ blocksFrom tSDIOut tSIIOut resp j f) := by
  intro f
  induction f with
  | zero =>
    intro j acc tr hj hb
    simp [shiftOutGo, foldBitsFrom, blocksFrom]
  | succ f ih =>
    intro j acc tr hj hb
    have hjf : 10 - f = j := by omega
    have hf : f = 10 - j := by omega
    have hpow : (2 : Nat) ≤ 2 ^ (f + 1) := by
      calc (2 : Nat) = 2 ^ 1 := rfl
        _ ≤ 2 ^ (f + 1) := Nat.pow_le_pow_right (by omega) (by omega)
    have hmod : (2 * acc) % 65536 = 2 * acc := by
      apply Nat.mod_eq_of_lt
      have h2 : (acc + 1) * 2 ≤ (acc + 1) * 2 ^ (f + 1) := Nat.mul_le_mul_left (acc + 1) hpow
      omega
    have hbound : (2 * acc + (bif resp j then 1 else 0) + 1) * 2 ^ f ≤ 65536 := by
      have hb1 := bif_le_one (resp j)
      calc (2 * acc + (bif resp j then 1 else 0) + 1) * 2 ^ f
          ≤ (2 * (acc + 1)) * 2 ^ f := Nat.mul_le_mul_right (2 ^ f) (by omega)
        _ = (acc + 1) * 2 ^ (f + 1) := by ring
        _ ≤ 65536 := hb
    have step : shiftOutGo tSDIOut tSIIOut resp (f + 1) acc tr
        = shiftOutGo tSDIOut tSIIOut resp f
            ((2 * acc) % 65536 ||| (bif resp (10 - f) then 1 else 0))
            (tr ++ [PinEvent.writeSDI (Nat.testBit tSDIOut f),
                    PinEvent.writeSII (Nat.testBit tSIIOut f),
                    PinEvent.readSDO (resp (10 - f)),
                    PinEvent.writeSCI true, PinEvent.writeSCI false]) := rfl
    rw [step, hjf, hmod, two_mul_lor_bit]
    rw [ih (j + 1) (2 * acc + (bif resp j then 1 else 0))
        (tr ++ [PinEvent.writeSDI (Nat.testBit tSDIOut f),
                PinEvent.writeSII (Nat.testBit tSIIOut f),
                PinEvent.readSDO (resp j),
                PinEvent.writeSCI true, PinEvent.writeSCI false]) (by omega) hbound]
    rw [blocksFrom, foldBitsFrom]
    simp [blockAt, hf, List.append_assoc]

/-- Closed form of a whole `shiftOut` call: the result is the 11-sample shift
register right-shifted by 2 and truncated to 8 bits, and the trace is the 11
iteration blocks; the samples used are the 11 SDO reads after the poll
exits. -/
lemma shiftOut_eq (aValue aAddress : Nat) (e : BitEnv)
    (h : ∃ k, pollDone e k = true) :
    shiftOut aValue aAddress e h
      = (foldBitsFrom (fun j => e.sdo (Nat.find h + 1 + j)) 0 0 11 / 4 % 256,
         blocksFrom ((aValue % 256) * 4 % 65536) ((aAddress % 256) * 4 % 65536)
           (fun j => e.sdo (Nat.find h + 1 + j)) 0 11) := by
  simp only [shiftOut]
  rw [shiftOutGo_spec _ _ _ 11 0 0 [] rfl (by norm_num)]
  simp

lemma foldBitsFrom_congr (r1 r2 : Nat → Bool) :
    ∀ (n j acc : Nat), (∀ t, j ≤ t → t < j + n → r1 t = r2 t) →
      foldBitsFrom r1 j acc n = foldBitsFrom r2 j acc n := by
  intro n
  induction n with
  | zero => intro j acc hsame; rfl
  | succ n ih =>
    intro j acc hsame
    rw [foldBitsFrom, foldBitsFrom, hsame j le_rfl (by omega)]
    exact ih (j + 1) _ (fun t ht1 ht2 => hsame t (by omega) (by omega))

lemma foldBitsFrom_lt (r : Nat → Bool) :
    ∀ (n j acc : Nat), foldBitsFrom r j acc n < (acc + 1) * 2 ^ n := by
  intro n
  induction n with
  | zero => intro j acc; simp [foldBitsFrom]
  | succ n ih =>
    intro j acc
    rw [foldBitsFrom]
    have hb := bif_le_one (r j)
    calc foldBitsFrom r (j + 1) (2 * acc + (bif r j then 1 else 0)) n
        < (2 * acc + (bif r j then 1 else 0) + 1) * 2 ^ n := ih (j + 1) _
      _ ≤ (2 * (acc + 1)) * 2 ^ n := Nat.mul_le_mul_right (2 ^ n) (by omega)
      _ = (acc + 1) * 2 ^ (n + 1) := by ring

/-- Claim C1: for every pair of 8-bit inputs, one `shiftOut` call produces
exactly the 11 iteration blocks -- driving the SDI/SII bits of `aValue << 2`
and `aAddress << 2` most-significant-first, sampling the response line once
per iteration before each clock pulse -- so it pulses the clock exactly 11
times and samples the response exactly 11 times, and it returns the
accumulated 11-bit shift register right-shifted by 2 and truncated to 8
bits; nothing in the result or trace depends on the clock stream, so the
outcome is independent of physical timing. -/
theorem shiftOut_frame_spec (aValue aAddress : Nat) (e : BitEnv)
    (h : ∃ k, pollDone e k = true)
    (hv : aValue < 256) (ha : aAddress < 256) :
    shiftOut aValue aAddress e h
      = (foldBitsFrom (fun j => e.sdo (Nat.find h + 1 + j)) 0 0 11 / 4 % 256,
         blocksFrom (aValue * 4) (aAddress * 4)
           (fun j => e.sdo (Nat.find h + 1 + j)) 0 11)
    ∧ List.countP isClockHigh (shiftOut aValue aAddress e h).snd = 11
    ∧ List.countP isResponseSample (shiftOut aValue aAddress e h).snd = 11
    ∧ foldBitsFrom (fun j => e.sdo (Nat.find h + 1 + j)) 0 0 11 < 2048 := by
  have hv4 : (aValue % 256) * 4 % 65536 = aValue * 4 := by omega
  have ha4 : (aAddress % 256) * 4 % 65536 = aAddress * 4 := by omega
  have heq := shiftOut_eq aValue aAddress e h
  rw [hv4, ha4] at heq
  refine ⟨heq, ?_, ?_, ?_⟩
  · rw [heq]
    rfl
  · rw [heq]
    rfl
  · have := foldBitsFrom_lt (fun j => e.sdo (Nat.find h + 1 + j)) 11 0 0
    simpa using this

/-- Concrete instance of C1: response line constantly high, inputs 0x4C and
0x2C. -/
theorem shiftOut_frame_spec_witness :
    shiftOut 0x4C 0x2C ⟨fun _ => true, fun _ => 0, 0⟩ ⟨0, rfl⟩
      = (foldBitsFrom (fun j => (⟨fun _ => true, fun _ => 0, 0⟩ : BitEnv).sdo
            (Nat.find (⟨0, rfl⟩ : ∃ k, pollDone ⟨fun _ => true, fun _ => 0, 0⟩ k = true) + 1 + j)) 0 0 11 / 4 % 256,
         blocksFrom (0x4C * 4) (0x2C * 4)
           (fun j => (⟨fun _ => true, fun _ => 0, 0⟩ : BitEnv).sdo
            (Nat.find (⟨0, rfl⟩ : ∃ k, pollDone ⟨fun _ => true, fun _ => 0, 0⟩ k = true) + 1 + j)) 0 11)
    ∧ List.countP isClockHigh (shiftOut 0x4C 0x2C ⟨fun _ => true, fun _ => 0, 0⟩ ⟨0, rfl⟩).snd = 11
    ∧ List.countP isResponseSample (shiftOut 0x4C 0x2C ⟨fun _ => true, fun _ => 0, 0⟩ ⟨0, rfl⟩).snd = 11
    ∧ foldBitsFrom (fun j => (⟨fun _ => true, fun _ => 0, 0⟩ : BitEnv).sdo
            (Nat.find (⟨0, rfl⟩ : ∃ k, pollDone ⟨fun _ => true, fun _ => 0, 0⟩ k = true) + 1 + j)) 0 0 11 < 2048 :=
  shiftOut_frame_spec 0x4C 0x2C ⟨fun _ => true, fun _ => 0, 0⟩ ⟨0, rfl⟩
    (by norm_num) (by norm_num)

/-- Claim C2: every `shiftOut` call starts with the bounded poll of the
response line.  Under the sole physical assumption that `millis()` eventually
exceeds the deadline `start + 300`, the poll terminates: it exits at the
first iteration that reads the line high or observes the clock past the
deadline; before that exit the line always read low and every clock reading
was still within the 300-time-unit bound; when the line is held permanently
low the exit is by timeout (clock past the deadline), and the transfer still
proceeds -- the call performs its full 11-iteration trace, so a timeout
neither aborts the call nor prevents termination. -/
theorem shiftOut_poll_terminates (aValue aAddress : Nat) (e : BitEnv)
    (hclk : ∃ k, e.start + READING_TIMEOUT_MILLIS < e.clk k) :
    ∃ h : ∃ k, pollDone e k = true,
      pollDone e (Nat.find h) = true
      ∧ (∀ j, j < Nat.find h → e.sdo j = false ∧ e.clk j ≤ e.start + READING_TIMEOUT_MILLIS)
      ∧ ((∀ k, e.sdo k = false) → e.start + READING_TIMEOUT_MILLIS < e.clk (Nat.find h))
      ∧ (shiftOut aValue aAddress e h).snd
          = blocksFrom ((aValue % 256) * 4 % 65536) ((aAddress % 256) * 4 % 65536)
              (fun j => e.sdo (Nat.find h + 1 + j)) 0 11 := by
  have h : ∃ k, pollDone e k = true := by
    obtain ⟨k, hk⟩ := hclk
    exact ⟨k, by simp [pollDone, hk]⟩
  refine ⟨h, Nat.find_spec h, ?_, ?_, ?_⟩
  · intro j hj
    have hmin := Nat.find_min h hj
    simp only [pollDone, Bool.or_eq_true, decide_eq_true_eq] at hmin
    push_neg at hmin
    constructor
    · cases hsdo : e.sdo j with
      | false => rfl
      | true => exact absurd hsdo hmin.1
    · exact hmin.2
  · intro hlow
    have hspec := Nat.find_spec h
    revert hspec
    generalize Nat.find h = n
    intro hspec
    unfold pollDone at hspec
    rw [hlow] at hspec
    simpa using hspec
  · rw [shiftOut_eq]

/-- Concrete instance of C2: response line permanently low, clock advancing
one unit per poll iteration from 0. -/
theorem shiftOut_poll_terminates_witness :
    ∃ h : ∃ k, pollDone ⟨fun _ => false, fun k => k, 0⟩ k = true,
      pollDone ⟨fun _ => false, fun k => k, 0⟩ (Nat.find h) = true
      ∧ (∀ j, j < Nat.find h →
          (⟨fun _ => false, fun k => k, 0⟩ : BitEnv).sdo j = false
          ∧ (⟨fun _ => false, fun k => k, 0⟩ : BitEnv).clk j
              ≤ (⟨fun _ => false, fun k => k, 0⟩ : BitEnv).start + READING_TIMEOUT_MILLIS)
      ∧ ((∀ k, (⟨fun _ => false, fun k => k, 0⟩ : BitEnv).sdo k = false) →
          (⟨fun _ => false, fun k => k, 0⟩ : BitEnv).start + READING_TIMEOUT_MILLIS
            < (⟨fun _ => false, fun k => k, 0⟩ : BitEnv).clk (Nat.find h))
      ∧ (shiftOut 0x04 0x4C ⟨fun _ => false, fun k => k, 0⟩ h).snd
          = blocksFrom ((0x04 % 256) * 4 % 65536) ((0x4C % 256) * 4 % 65536)
              (fun j => (⟨fun _ => false, fun k => k, 0⟩ : BitEnv).sdo (Nat.find h + 1 + j)) 0 11 :=
  shiftOut_poll_terminates 0x04 0x4C ⟨fun _ => false, fun k => k, 0⟩ ⟨301, by decide⟩

/-- Claim C10: the byte returned by `shiftOut` depends only on the sequence
of levels sampled on the response line during the 11 transfer iterations:
two calls with arbitrary, possibly different `(value, address)` arguments
and environments return identical bytes whenever their 11 post-poll samples
agree (and the result is a deterministic function of those samples). -/
theorem shiftOut_noninterference (v1 a1 v2 a2 : Nat) (e1 e2 : BitEnv)
    (h1 : ∃ k, pollDone e1 k = true) (h2 : ∃ k, pollDone e2 k = true)
    (hsame : ∀ j, j < 11 → e1.sdo (Nat.find h1 + 1 + j) = e2.sdo (Nat.find h2 + 1 + j)) :
    (shiftOut v1 a1 e1 h1).fst = (shiftOut v2 a2 e2 h2).fst := by
  rw [shiftOut_eq, shiftOut_eq]
  have hcong := foldBitsFrom_congr (fun j => e1.sdo (Nat.find h1 + 1 + j))
      (fun j => e2.sdo (Nat.find h2 + 1 + j)) 11 0 0
      (fun t ht1 ht2 => hsame t (by omega))
  simp only [hcong]

/-- Concrete instance of C10: different argument pairs, same constant-high
response line. -/
theorem shiftOut_noninterference_witness :
    (shiftOut 0x40 0x4C ⟨fun _ => true, fun _ => 0, 0⟩ ⟨0, rfl⟩).fst
      = (shiftOut 0x00 0x2C ⟨fun _ => true, fun _ => 0, 0⟩ ⟨0, rfl⟩).fst :=
  shiftOut_noninterference 0x40 0x4C 0x00 0x2C
    ⟨fun _ => true, fun _ => 0, 0⟩ ⟨fun _ => true, fun _ => 0, 0⟩ ⟨0, rfl⟩ ⟨0, rfl⟩
    (fun _ _ => rfl)

lemma powerUp_trace (s : HW) : (powerUp s).trace = s.trace ++ upTrace := by
  simp [powerUp, emit, upTrace]

lemma powerUp_count (s : HW) : (powerUp s).count = s.count := rfl

lemma powerUp_resp (s : HW) : (powerUp s).resp = s.resp := rfl

lemma readSignature_fst (s : HW) :
    (readSignature s).1 = (s.resp (s.count + 3) % 256) * 256 + s.resp (s.count + 7) % 256 := by
  simp [readSignature, readSignatureStep, transact, Nat.shiftLeft_eq, Nat.add_assoc]
  omega

lemma readSignature_snd_trace (s : HW) :
    (readSignature s).2.trace = s.trace ++ sigTrace := by
  simp [readSignature, readSignatureStep, transact, sigTrace]

lemma readSignature_snd_count (s : HW) : (readSignature s).2.count = s.count + 8 := rfl

lemma readSignature_snd_resp (s : HW) : (readSignature s).2.resp = s.resp := rfl

lemma readFuses_trace (s : HW) : (readFuses s).trace = s.trace ++ fuseReadTrace := by
  simp [readFuses, transact, fuseReadTrace]

lemma readFuses_count (s : HW) : (readFuses s).count = s.count + 9 := rfl

lemma readFuses_resp (s : HW) : (readFuses s).resp = s.resp := rfl

lemma readLockBits_snd_trace (s : HW) :
    (readLockBits s).2.trace = s.trace ++ lockReadTrace := by
  simp [readLockBits, transact, lockReadTrace]

lemma readLockBits_snd_count (s : HW) : (readLockBits s).2.count = s.count + 3 := rfl

lemma readLockBits_snd_resp (s : HW) : (readLockBits s).2.resp = s.resp := rfl

lemma eraseFlashAndLockBits_trace (s : HW) :
    (eraseFlashAndLockBits s).trace = s.trace ++ eraseTrace := by
  simp [eraseFlashAndLockBits, transact, eraseTrace]

lemma eraseFlashAndLockBits_count (s : HW) :
    (eraseFlashAndLockBits s).count = s.count + 3 := rfl

lemma eraseFlashAndLockBits_resp (s : HW) :
    (eraseFlashAndLockBits s).resp = s.resp := rfl

lemma writeFuse_trace (aFuseAddress aFuseValue : Nat) (s : HW) :
    (writeFuse aFuseAddress aFuseValue s).trace
      = s.trace ++ writeFuseTrace aFuseAddress aFuseValue := by
  simp [writeFuse, transact, writeFuseTrace]

lemma writeFuse_count (aFuseAddress aFuseValue : Nat) (s : HW) :
    (writeFuse aFuseAddress aFuseValue s).count = s.count + 4 := rfl

lemma writeFuse_resp (aFuseAddress aFuseValue : Nat) (s : HW) :
    (writeFuse aFuseAddress aFuseValue s).resp = s.resp := rfl

/-- The complete event trace of one session, as a function of the command
character and of the signature assembled from the oracle. -/
lemma session_trace_model (resp : Nat → Nat) (c : Nat) :
    (session c (initHW resp)).trace =
      upTrace ++ sigTrace ++ fuseReadTrace ++ lockReadTrace
      ++ (if c = 101 ∨ c = 69 then eraseTrace else [])
      ++ (if sigOf resp = ATTINY13 then
            (if c ≠ 101 ∧ c ≠ 69 ∧ c ≠ 114 ∧ c ≠ 82 then write13Trace else [])
          else if sigOf resp = ATTINY24 ∨ sigOf resp = ATTINY44 ∨ sigOf resp = ATTINY84
              ∨ sigOf resp = ATTINY25 ∨ sigOf resp = ATTINY45 ∨ sigOf resp = ATTINY85 then
            (if c ≠ 101 ∧ c ≠ 69 ∧ c ≠ 114 ∧ c ≠ 82 then writeFamTrace else [])
          else [])
      ++ (if c ≠ 114 ∧ c ≠ 82 then fuseReadTrace ++ lockReadTrace else [])
      ++ downTrace := by
  have hsig : (readSignature (powerUp (initHW resp))).1 = sigOf resp := by
    rw [readSignature_fst]
    simp [powerUp_resp, powerUp_count, initHW, sigOf]
  simp only [session]
  rw [hsig]
  split_ifs <;>
    simp [emit, powerUp_trace, readSignature_snd_trace, readFuses_trace,
      readLockBits_snd_trace, eraseFlashAndLockBits_trace, writeFuse_trace,
      initHW, List.append_assoc, upTrace, sigTrace, fuseReadTrace, lockReadTrace,
      eraseTrace, writeFuseTrace, write13Trace, writeFamTrace, downTrace]

lemma txn40_notMem_upTrace : SEvent.txn 0x40 0x4C ∉ upTrace := by decide

lemma txn40_notMem_sigTrace : SEvent.txn 0x40 0x4C ∉ sigTrace := by decide

lemma txn40_notMem_fuseReadTrace : SEvent.txn 0x40 0x4C ∉ fuseReadTrace := by decide

lemma txn40_notMem_lockReadTrace : SEvent.txn 0x40 0x4C ∉ lockReadTrace := by decide

lemma txn40_notMem_eraseTrace : SEvent.txn 0x40 0x4C ∉ eraseTrace := by decide

lemma txn40_notMem_downTrace : SEvent.txn 0x40 0x4C ∉ downTrace := by decide

lemma txn40_mem_write13Trace : SEvent.txn 0x40 0x4C ∈ write13Trace := by decide

lemma txn40_mem_writeFamTrace : SEvent.txn 0x40 0x4C ∈ writeFamTrace := by decide

lemma txn80_notMem_upTrace : SEvent.txn 0x80 0x4C ∉ upTrace := by decide

lemma txn80_notMem_sigTrace : SEvent.txn 0x80 0x4C ∉ sigTrace := by decide

lemma txn80_notMem_fuseReadTrace : SEvent.txn 0x80 0x4C ∉ fuseReadTrace := by decide

lemma txn80_notMem_lockReadTrace : SEvent.txn 0x80 0x4C ∉ lockReadTrace := by decide

lemma txn80_notMem_downTrace : SEvent.txn 0x80 0x4C ∉ downTrace := by decide

lemma txn066_notMem_upTrace : SEvent.txn 0x00 0x66 ∉ upTrace := by decide

lemma txn066_notMem_sigTrace : SEvent.txn 0x00 0x66 ∉ sigTrace := by decide

lemma txn066_notMem_fuseReadTrace : SEvent.txn 0x00 0x66 ∉ fuseReadTrace := by decide

lemma txn066_notMem_lockReadTrace : SEvent.txn 0x00 0x66 ∉ lockReadTrace := by decide

lemma txn066_notMem_write13Trace : SEvent.txn 0x00 0x66 ∉ write13Trace := by decide

lemma txn066_notMem_downTrace : SEvent.txn 0x00 0x66 ∉ downTrace := by decide

/-- Claim C3: `readSignature` issues exactly the 4-transaction sub-sequence
(0x08,0x4C), (index,0x0C), (0x00,0x68), (0x00,0x6C) for index 1 and then for
index 2 (never index 0), and returns the two read bytes folded big-endian:
first byte times 256 plus second byte. -/
theorem readSignature_sequence (s : HW) :
    (readSignature s).2.trace = s.trace ++ sigTrace
    ∧ (readSignature s).1
        = (s.resp (s.count + 3) % 256) * 256 + s.resp (s.count + 7) % 256
    ∧ sigTrace
        = [SEvent.txn 0x08 0x4C, SEvent.txn 0x01 0x0C, SEvent.txn 0x00 0x68, SEvent.txn 0x00 0x6C,
           SEvent.txn 0x08 0x4C, SEvent.txn 0x02 0x0C, SEvent.txn 0x00 0x68, SEvent.txn 0x00 0x6C]
    ∧ SEvent.txn 0x00 0x0C ∉ sigTrace :=
  ⟨readSignature_snd_trace s, readSignature_fst s, rfl, by decide⟩

/-- Claim C4: `writeFuse` issues exactly the fixed 4-transaction sequence
(0x40,0x4C), (value,0x2C), (0x00, address high byte), (0x00, address low
byte) in that order, and nothing else -- in particular no read-back
transaction (the call adds exactly 4 to the transaction count). -/
theorem writeFuse_sequence (aFuseAddress aFuseValue : Nat) (s : HW)
    (ha : aFuseAddress < 65536) (hv : aFuseValue < 256) :
    (writeFuse aFuseAddress aFuseValue s).trace
      = s.trace ++ [SEvent.txn 0x40 0x4C, SEvent.txn aFuseValue 0x2C,
                    SEvent.txn 0x00 (aFuseAddress / 256), SEvent.txn 0x00 (aFuseAddress % 256)]
    ∧ (writeFuse aFuseAddress aFuseValue s).count = s.count + 4 := by
  refine ⟨?_, writeFuse_count _ _ _⟩
  rw [writeFuse_trace]
  have h1 : aFuseValue % 256 = aFuseValue := Nat.mod_eq_of_lt hv
  have h2 : aFuseAddress / 256 % 256 = aFuseAddress / 256 :=
    Nat.mod_eq_of_lt (by omega)
  simp [writeFuseTrace, h1, h2]

/-- Concrete instance of C4: writing 0x62 to the low-fuse selector 0x646C. -/
theorem writeFuse_sequence_witness :
    (writeFuse 0x646C 0x62 (initHW (fun _ => 0))).trace
      = (initHW (fun _ => 0)).trace
        ++ [SEvent.txn 0x40 0x4C, SEvent.txn 0x62 0x2C,
            SEvent.txn 0x00 (0x646C / 256), SEvent.txn 0x00 (0x646C % 256)]
    ∧ (writeFuse 0x646C 0x62 (initHW (fun _ => 0))).count = (initHW (fun _ => 0)).count + 4 :=
  writeFuse_sequence 0x646C 0x62 (initHW (fun _ => 0)) (by decide) (by decide)

set_option maxRecDepth 4096 in
lemma lockDecode_aux : ∀ v : Nat, v < 256 →
    (LockMsg.lb1Programmed
        ∈ [if v &&& 0x01 ≠ 0 then LockMsg.lb1NotProgrammed else LockMsg.lb1Programmed,
           if v &&& 0x02 ≠ 0 then LockMsg.lb2NotProgrammed else LockMsg.lb2Programmed]
      ↔ v &&& 0x01 = 0)
    ∧ (LockMsg.lb2Programmed
        ∈ [if v &&& 0x01 ≠ 0 then LockMsg.lb1NotProgrammed else LockMsg.lb1Programmed,
           if v &&& 0x02 ≠ 0 then LockMsg.lb2NotProgrammed else LockMsg.lb2Programmed]
      ↔ v &&& 0x02 = 0) := by decide

/-- Claim C5: lock-bit decoding is inverted.  For every state, the raw lock
byte is the response to the third lock-read transaction, LB1 is reported
programmed exactly when its bit 0 is 0 and LB2 exactly when bit 1 is 0; in
particular raw 0x03 reports both not programmed, 0x00 both programmed, and
0x01/0x02 one of each. -/
theorem readLockBits_decode :
    (∀ s : HW,
      (LockMsg.lb1Programmed ∈ (readLockBits s).1 ↔ s.resp (s.count + 2) % 256 &&& 0x01 = 0)
      ∧ (LockMsg.lb2Programmed ∈ (readLockBits s).1 ↔ s.resp (s.count + 2) % 256 &&& 0x02 = 0))
    ∧ (readLockBits (initHW (fun _ => 0x03))).1 = [LockMsg.lb1NotProgrammed, LockMsg.lb2NotProgrammed]
    ∧ (readLockBits (initHW (fun _ => 0x00))).1 = [LockMsg.lb1Programmed, LockMsg.lb2Programmed]
    ∧ (readLockBits (initHW (fun _ => 0x01))).1 = [LockMsg.lb1NotProgrammed, LockMsg.lb2Programmed]
    ∧ (readLockBits (initHW (fun _ => 0x02))).1 = [LockMsg.lb1Programmed, LockMsg.lb2NotProgrammed] := by
  refine ⟨fun s => ?_, by decide, by decide, by decide, by decide⟩
  have hv : (readLockBits s).1
      = [if s.resp (s.count + 2) % 256 &&& 0x01 ≠ 0 then LockMsg.lb1NotProgrammed
         else LockMsg.lb1Programmed,
         if s.resp (s.count + 2) % 256 &&& 0x02 ≠ 0 then LockMsg.lb2NotProgrammed
         else LockMsg.lb2Programmed] := rfl
  rw [hv]
  exact lockDecode_aux (s.resp (s.count + 2) % 256) (Nat.mod_lt _ (by norm_num))

/-- Claim C6: in erase mode ('e' = 101 or 'E' = 69) the session issues
exactly the 3-transaction erase sequence (0x80,0x4C), (0x00,0x64),
(0x00,0x6C) after the initial reads, never issues a write-fuse transaction,
and then performs the standard post-operation fuse and lock-bit verification
reads before powering down. -/
theorem session_erase_mode (resp : Nat → Nat) (c : Nat) (hc : c = 101 ∨ c = 69) :
    (session c (initHW resp)).trace
      = upTrace ++ sigTrace ++ fuseReadTrace ++ lockReadTrace ++ eraseTrace
        ++ fuseReadTrace ++ lockReadTrace ++ downTrace
    ∧ eraseTrace = [SEvent.txn 0x80 0x4C, SEvent.txn 0x00 0x64, SEvent.txn 0x00 0x6C]
    ∧ SEvent.txn 0x40 0x4C ∉ (session c (initHW resp)).trace := by
  have hmodel := session_trace_model resp c
  rcases hc with rfl | rfl <;>
    refine ⟨?_, rfl, ?_⟩ <;>
      rw [hmodel] <;>
        simp [List.append_assoc, List.mem_append, txn40_notMem_upTrace,
          txn40_notMem_sigTrace, txn40_notMem_fuseReadTrace, txn40_notMem_lockReadTrace,
          txn40_notMem_eraseTrace, txn40_notMem_downTrace]

/-- Concrete instance of C6: character 'e', all-zero response oracle. -/
theorem session_erase_mode_witness :
    (session 101 (initHW (fun _ => 0))).trace
      = upTrace ++ sigTrace ++ fuseReadTrace ++ lockReadTrace ++ eraseTrace
        ++ fuseReadTrace ++ lockReadTrace ++ downTrace
    ∧ eraseTrace = [SEvent.txn 0x80 0x4C, SEvent.txn 0x00 0x64, SEvent.txn 0x00 0x6C]
    ∧ SEvent.txn 0x40 0x4C ∉ (session 101 (initHW (fun _ => 0))).trace :=
  session_erase_mode (fun _ => 0) 101 (Or.inl rfl)

/-- Claim C7: a write-fuse transaction (mode-select 0x40,0x4C) occurs in a
session exactly when the mode is write-defaults (the received character is
none of 'e','E','r','R') and the assembled signature is ATtiny13 (0x9007) or
one of ATtiny24/44/84/25/45/85; in those cases the values written are the
device defaults -- ATtiny13: low 0x6A, high 0xFF and no extended-fuse write;
the six-member family: low 0x62, high 0xDF, extended 0xFF. -/
theorem session_write_defaults (resp : Nat → Nat) (c : Nat) :
    (SEvent.txn 0x40 0x4C ∈ (session c (initHW resp)).trace
      ↔ ((c ≠ 101 ∧ c ≠ 69 ∧ c ≠ 114 ∧ c ≠ 82)
         ∧ (sigOf resp = ATTINY13
            ∨ (sigOf resp = ATTINY24 ∨ sigOf resp = ATTINY44 ∨ sigOf resp = ATTINY84
               ∨ sigOf resp = ATTINY25 ∨ sigOf resp = ATTINY45 ∨ sigOf resp = ATTINY85))))
    ∧ ((c ≠ 101 ∧ c ≠ 69 ∧ c ≠ 114 ∧ c ≠ 82) → sigOf resp = ATTINY13 →
        (session c (initHW resp)).trace
          = upTrace ++ sigTrace ++ fuseReadTrace ++ lockReadTrace ++ write13Trace
            ++ fuseReadTrace ++ lockReadTrace ++ downTrace
        ∧ write13Trace
            = [SEvent.txn 0x40 0x4C, SEvent.txn 0x6A 0x2C, SEvent.txn 0x00 0x64, SEvent.txn 0x00 0x6C,
               SEvent.txn 0x40 0x4C, SEvent.txn 0xFF 0x2C, SEvent.txn 0x00 0x74, SEvent.txn 0x00 0x7C]
        ∧ SEvent.txn 0x00 0x66 ∉ (session c (initHW resp)).trace)
    ∧ ((c ≠ 101 ∧ c ≠ 69 ∧ c ≠ 114 ∧ c ≠ 82) →
        (sigOf resp = ATTINY24 ∨ sigOf resp = ATTINY44 ∨ sigOf resp = ATTINY84
         ∨ sigOf resp = ATTINY25 ∨ sigOf resp = ATTINY45 ∨ sigOf resp = ATTINY85) →
        (session c (initHW resp)).trace
          = upTrace ++ sigTrace ++ fuseReadTrace ++ lockReadTrace ++ writeFamTrace
            ++ fuseReadTrace ++ lockReadTrace ++ downTrace
        ∧ writeFamTrace
            = [SEvent.txn 0x40 0x4C, SEvent.txn 0x62 0x2C, SEvent.txn 0x00 0x64, SEvent.txn 0x00 0x6C,
               SEvent.txn 0x40 0x4C, SEvent.txn 0xDF 0x2C, SEvent.txn 0x00 0x74, SEvent.txn 0x00 0x7C,
               SEvent.txn 0x40 0x4C, SEvent.txn 0xFF 0x2C, SEvent.txn 0x00 0x66, SEvent.txn 0x00 0x6E]) := by
  have hmodel := session_trace_model resp c
  refine ⟨?_, ?_, ?_⟩
  · rw [hmodel]
    split_ifs <;>
      simp_all [List.mem_append, txn40_notMem_upTrace, txn40_notMem_sigTrace,
        txn40_notMem_fuseReadTrace, txn40_notMem_lockReadTrace, txn40_notMem_eraseTrace,
        txn40_notMem_downTrace, txn40_mem_write13Trace, txn40_mem_writeFamTrace]
  · intro hm h13
    refine ⟨?_, by decide, ?_⟩
    · rw [hmodel]
      simp [h13, hm.1, hm.2.1, hm.2.2.1, hm.2.2.2, List.append_assoc]
    · rw [hmodel]
      simp [h13, hm.1, hm.2.1, hm.2.2.1, hm.2.2.2, List.mem_append,
        txn066_notMem_upTrace, txn066_notMem_sigTrace, txn066_notMem_fuseReadTrace,
        txn066_notMem_lockReadTrace, txn066_notMem_write13Trace, txn066_notMem_downTrace]
  · intro hm hfam
    refine ⟨?_, by decide⟩
    rw [hmodel]
    rcases hfam with h | h | h | h | h | h <;>
      simp [h, hm.1, hm.2.1, hm.2.2.1, hm.2.2.2, ATTINY13, ATTINY24, ATTINY44,
        ATTINY84, ATTINY25, ATTINY45, ATTINY85, List.append_assoc]

/-- Concrete instance of C7: default mode (character 0), oracle giving
signature 0x9007. -/
theorem session_write_defaults_witness :
    (session 0 (initHW sig13Resp)).trace
      = upTrace ++ sigTrace ++ fuseReadTrace ++ lockReadTrace ++ write13Trace
        ++ fuseReadTrace ++ lockReadTrace ++ downTrace
    ∧ write13Trace
        = [SEvent.txn 0x40 0x4C, SEvent.txn 0x6A 0x2C, SEvent.txn 0x00 0x64, SEvent.txn 0x00 0x6C,
           SEvent.txn 0x40 0x4C, SEvent.txn 0xFF 0x2C, SEvent.txn 0x00 0x74, SEvent.txn 0x00 0x7C]
    ∧ SEvent.txn 0x00 0x66 ∉ (session 0 (initHW sig13Resp)).trace :=
  (session_write_defaults sig13Resp 0).2.1 (by decide) (by decide)

/-- Claim C8: when the assembled signature matches no known device, a
write-defaults session skips both write and erase mutation (no 0x40,0x4C and
no 0x80,0x4C transaction) while the read-only diagnostics still run and the
full read / verify / power-down sequence still completes. -/
theorem session_unknown_signature (resp : Nat → Nat) (c : Nat)
    (hm : c ≠ 101 ∧ c ≠ 69 ∧ c ≠ 114 ∧ c ≠ 82)
    (hs : sigOf resp ≠ ATTINY13 ∧ sigOf resp ≠ ATTINY24 ∧ sigOf resp ≠ ATTINY44
        ∧ sigOf resp ≠ ATTINY84 ∧ sigOf resp ≠ ATTINY25 ∧ sigOf resp ≠ ATTINY45
        ∧ sigOf resp ≠ ATTINY85) :
    (session c (initHW resp)).trace
      = upTrace ++ sigTrace ++ fuseReadTrace ++ lockReadTrace
        ++ fuseReadTrace ++ lockReadTrace ++ downTrace
    ∧ SEvent.txn 0x40 0x4C ∉ (session c (initHW resp)).trace
    ∧ SEvent.txn 0x80 0x4C ∉ (session c (initHW resp)).trace := by
  have hmodel := session_trace_model resp c
  refine ⟨?_, ?_, ?_⟩ <;> rw [hmodel] <;>
    simp [hm.1, hm.2.1, hm.2.2.1, hm.2.2.2, hs.1, hs.2.1, hs.2.2.1, hs.2.2.2.1,
      hs.2.2.2.2.1, hs.2.2.2.2.2.1, hs.2.2.2.2.2.2, List.append_assoc, List.mem_append,
      txn40_notMem_upTrace, txn40_notMem_sigTrace, txn40_notMem_fuseReadTrace,
      txn40_notMem_lockReadTrace, txn40_notMem_downTrace, txn80_notMem_upTrace,
      txn80_notMem_sigTrace, txn80_notMem_fuseReadTrace, txn80_notMem_lockReadTrace,
      txn80_notMem_downTrace]

/-- Concrete instance of C8: default mode, all-zero oracle (signature 0). -/
theorem session_unknown_signature_witness :
    (session 0 (initHW (fun _ => 0))).trace
      = upTrace ++ sigTrace ++ fuseReadTrace ++ lockReadTrace
        ++ fuseReadTrace ++ lockReadTrace ++ downTrace
    ∧ SEvent.txn 0x40 0x4C ∉ (session 0 (initHW (fun _ => 0))).trace
    ∧ SEvent.txn 0x80 0x4C ∉ (session 0 (initHW (fun _ => 0))).trace :=
  session_unknown_signature (fun _ => 0) 0 (by decide) (by decide)

/-- Claim C9: on every exit path of a session -- for every command character
and every response oracle, hence regardless of which branch was taken,
including the unrecognized-device case -- the trace ends with the
unconditional power-down writes: SCI low, target VCC off, RST high (which
de-energizes the 12V rail through the inverting level shifter). -/
theorem session_powerdown_unconditional (resp : Nat → Nat) (c : Nat) :
    ∃ t, (session c (initHW resp)).trace = t ++ downTrace
      ∧ downTrace = [SEvent.writeSCI false, SEvent.writeVCC false, SEvent.writeRST true] :=
  ⟨_, session_trace_model resp c, rfl⟩
